import Mathlib

/-!
Verification of the NYT-Bestsellers-CatKey-Generator repository against its
natural-language specification.  The pipeline of the specification is the one
implemented by nyt_catkey_enhanced.py; the two older script variants
(NYT-to-Library-CatKey-Generator.py and nyt_bestsellers_scraper.py) are
modelled where a claim touches them.  Strings are modelled as `String`
(with `List Char` for the character-level regex scanner), the NYT API, the
Selenium browser session, the filesystem and the SMTP channel are modelled as
explicit oracles, and Python exceptions are modelled with `Except` values.
-/

/- ──────────────────────────────────────────────────────────────────────────
   CatKey extraction, from nyt_catkey_enhanced.py lines 275-277:
   re.search with pattern SD_ILS followed by a colon and a digit group.
   ────────────────────────────────────────────────────────────────────────── -/

/-- The fixed marker of the record-key grammar: the literal characters of the
regex fragment before the capture group in r"SD_ILS:(\d+)". -/
def markerL : List Char := ['S', 'D', '_', 'I', 'L', 'S', ':']

/-- Longest run of decimal digits at the front of a character list.  This is
the greedy capture group of the regex r"SD_ILS:(\d+)". -/
def leadingDigits : List Char → List Char
  | [] => []
  | c :: cs => if c.isDigit then c :: leadingDigits cs else []

/-- Character-level model of re.search with pattern r"SD_ILS:(\d+)" as used in
_extract_catkey_from_url: scan left to right for the first position where the
marker occurs immediately followed by at least one digit, and return the
maximal digit run after the marker; return none when no position matches. -/
def extractCatkey : List Char → Option (List Char)
  | [] => none
  | c :: cs =>
    if markerL <+: (c :: cs) ∧ leadingDigits ((c :: cs).drop markerL.length) ≠ [] then
      some (leadingDigits ((c :: cs).drop markerL.length))
    else
      extractCatkey cs

/-- The input contains a substring of the form SD_ILS: followed by a digit,
i.e. the regex r"SD_ILS:(\d+)" has a match somewhere in the input. -/
def hasCatkeyMatch (s : List Char) : Prop :=
  ∃ pre d post, s = pre ++ markerL ++ d :: post ∧ d.isDigit = true

/-- String-level wrapper of the scanner, the model of
_extract_catkey_from_url in nyt_catkey_enhanced.py. -/
def extract_catkey_from_url (url : String) : Option String :=
  match extractCatkey url.toList with
  | some k => some (String.mk k)
  | none => none

/- ──────────────────────────────────────────────────────────────────────────
   Resolution engine, from nyt_catkey_enhanced.py search_library_catalog
   (lines 279-318).  A navigation step (driver.get plus the WebDriverWait
   plus the link scan of the rendered page) either faults with a Python
   exception or yields the current location and the scanned anchor targets.
   ────────────────────────────────────────────────────────────────────────── -/

/-- Session-level faults: TimeoutException, WebDriverException, and the
catch-all Exception arm of search_library_catalog. -/
inductive Fault
  | timeout
  | webdriver
  | unexpected
deriving DecidableEq

/-- Outcome of navigating the session to a search URL and waiting: either a
fault, or the final location together with the hrefs of the anchors matched
by the css selector for SD_ILS links. -/
inductive NavOutcome
  | fault (f : Fault)
  | page (url : String) (hrefs : List String)
deriving DecidableEq

/-- One browser session, as seen by a single resolution: the outcome of the
ISBN-mode navigation (the q1 URL) and of the title-mode navigation (the q2
URL), were each to be performed. -/
structure Session where
  isbnNav : NavOutcome
  titleNav : NavOutcome
deriving DecidableEq

/-- The two search modes of the engine: the dt=list ISBN query and the
search/title fallback query. -/
inductive SearchMode
  | isbn
  | title
deriving DecidableEq

/-- First CatKey extracted from a list of hrefs, mirroring the for-loop over
driver.find_elements with break on the first hit. -/
def firstLinkCatkey : List String → Option String
  | [] => none
  | h :: t =>
    match extract_catkey_from_url h with
    | some k => some k
    | none => firstLinkCatkey t

/-- Both extraction attempts on one rendered page: first the current location,
then the scanned link hrefs. -/
def pageCatkey (url : String) (hrefs : List String) : Option String :=
  match extract_catkey_from_url url with
  | some k => some k
  | none => firstLinkCatkey hrefs

/-- The body of search_library_catalog before its exception handlers: the
possibly-faulting computation, paired with the trace of search requests it
issued.  The title-mode request appears in the trace exactly when the ISBN
strategy yielded no pattern match after both extraction attempts. -/
def searchRaw (s : Session) : Except Fault (Option String) × List SearchMode :=
  match s.isbnNav with
  | NavOutcome.fault f => (Except.error f, [SearchMode.isbn])
  | NavOutcome.page u hs =>
    match pageCatkey u hs with
    | some k => (Except.ok (some k), [SearchMode.isbn])
    | none =>
      match s.titleNav with
      | NavOutcome.fault f => (Except.error f, [SearchMode.isbn, SearchMode.title])
      | NavOutcome.page u2 hs2 =>
        (Except.ok (pageCatkey u2 hs2), [SearchMode.isbn, SearchMode.title])

/-- search_library_catalog of nyt_catkey_enhanced.py: the body above with the
except arms applied, which convert every session fault into the unresolved
result None. -/
def search_library_catalog (s : Session) : Option String × List SearchMode :=
  match searchRaw s with
  | (Except.error _, tr) => (none, tr)
  | (Except.ok r, tr) => (r, tr)

/- ──────────────────────────────────────────────────────────────────────────
   NYT list fetch, from nyt_catkey_enhanced.py fetch_nyt_list (lines 208-249).
   ────────────────────────────────────────────────────────────────────────── -/

/-- One entry of the secondary isbns array of a book record: either a JSON
object carrying an optional isbn13 field, or a value of another shape, which
the isinstance check of the enhanced script skips. -/
inductive IsbnEntry
  | dict (isbn13 : Option String)
  | nonDict
deriving DecidableEq

/-- One raw book record of the NYT API response.  The title and author fields
model the result of the dict lookups with their Unknown defaults already
applied. -/
structure NytBook where
  primary_isbn13 : Option String
  isbns : List IsbnEntry
  title : String
  author : String
deriving DecidableEq

/-- One normalized candidate produced by the fetch, and also the book dicts
consumed by the main loop. -/
structure Candidate where
  isbn13 : String
  title : String
  author : String
deriving DecidableEq

/-- First truthy isbn13 among the dict entries of the isbns array, mirroring
the fallback loop with its isinstance check and break. -/
def firstDictIsbn : List IsbnEntry → Option String
  | [] => none
  | IsbnEntry.dict o :: t =>
    (match o with
     | some s => if s ≠ "" then some s else firstDictIsbn t
     | none => firstDictIsbn t)
  | IsbnEntry.nonDict :: t => firstDictIsbn t

/-- The identifier chosen for a book: the primary field when truthy, else the
fallback to the secondary isbns list. -/
def chooseIsbn (b : NytBook) : Option String :=
  match b.primary_isbn13 with
  | some s => if s ≠ "" then some s else firstDictIsbn b.isbns
  | none => firstDictIsbn b.isbns

/-- re.sub removing every non-digit character. -/
def stripNonDigits (s : String) : String :=
  String.mk (s.toList.filter (fun c => c.isDigit))

/-- Per-book normalization of fetch_nyt_list: keep the book as a candidate
exactly when a chosen identifier strips to 13 digits, else discard it. -/
def candidateOfBook (b : NytBook) : Option Candidate :=
  match chooseIsbn b with
  | none => none
  | some raw =>
    let clean := stripNonDigits raw
    if clean.length = 13 then some ⟨clean, b.title, b.author⟩ else none

/-- The body of a successful fetch attempt: normalize and filter the raw book
records of the response. -/
def processBooks_enh (books : List NytBook) : List Candidate :=
  books.filterMap candidateOfBook

/-- Outcome of one HTTP attempt against the NYT API: a parsed response, or one
of the two caught request failures. -/
inductive FetchOutcome
  | success (books : List NytBook)
  | timeout
  | reqError
deriving DecidableEq

/-- The retry loop of fetch_nyt_list: attempt numbers count up from zero, the
fuel argument is the number of attempts still allowed, and a backoff wait of
two to the power of the attempt number is performed after every failed
attempt except the last.  Returns the produced candidates together with the
list of backoff waits performed, in order. -/
def fetch_attempts (resp : Nat → FetchOutcome) (attempt : Nat) :
    Nat → List Candidate × List Nat
  | 0 => ([], [])
  | remaining + 1 =>
    match resp attempt with
    | FetchOutcome.success books => (processBooks_enh books, [])
    | _ =>
      let tail := fetch_attempts resp (attempt + 1) remaining
      (tail.1, (if 0 < remaining then [2 ^ attempt] else []) ++ tail.2)

/-- fetch_nyt_list of nyt_catkey_enhanced.py, abstracted over the network: up
to maxRetries attempts, returning the empty candidate list on exhaustion. -/
def fetch_nyt_list (maxRetries : Nat) (resp : Nat → FetchOutcome) :
    List Candidate × List Nat :=
  fetch_attempts resp 0 maxRetries

/- ──────────────────────────────────────────────────────────────────────────
   Session lifecycle, from nyt_catkey_enhanced.py main (lines 432-493):
   driver acquisition, an arbitrary body, and the finally block that quits
   the driver whenever one was created.
   ────────────────────────────────────────────────────────────────────────── -/

/-- Python exception values that can cross function boundaries in the run. -/
inductive PyErr
  | webdriver
  | attributeErr
  | other
deriving DecidableEq

/-- Observable events of one run. -/
inductive RunEvent
  | createDriver
  | bodyStep (n : Nat)
  | quitDriver
deriving DecidableEq

/-- The main function of nyt_catkey_enhanced.py around its try/finally: if
driver creation fails the body never starts and no quit is owed; otherwise
the body runs to its outcome (normal return or an uncaught exception from
any list fetch or resolution, abstracted as the event trace and outcome of
the body), and the finally block quits the driver before the outcome leaves
main.  Returns the full event trace and the escaping outcome. -/
def enhanced_main_run (createOk : Bool)
    (body : List RunEvent × Except PyErr Unit) :
    List RunEvent × Except PyErr Unit :=
  if createOk then
    (RunEvent.createDriver :: body.1 ++ [RunEvent.quitDriver], body.2)
  else
    ([], Except.error PyErr.webdriver)

/- ──────────────────────────────────────────────────────────────────────────
   Report generation.
   ────────────────────────────────────────────────────────────────────────── -/

/-- Python str.title on a character list: a letter is uppercased when the
previous character is not a letter and lowercased otherwise; the flag carries
whether the previous character was a letter. -/
def pyTitleAux : List Char → Bool → List Char
  | [], _ => []
  | c :: cs, prevAlpha =>
    if c.isAlpha then
      (if prevAlpha then c.toLower else c.toUpper) :: pyTitleAux cs true
    else
      c :: pyTitleAux cs false

/-- The list-name formatting used by every report writer of the repository:
replace dashes by spaces, then apply str.title. -/
def titleCaseName (s : String) : String :=
  String.mk (pyTitleAux (s.toList.map (fun c => if c = '-' then ' ' else c)) false)

/-- Comma join of the resolved keys of one list, in the order resolved. -/
def joinKeys (ks : List String) : String :=
  String.intercalate "," ks

/-- Lines of the found TXT file written by NYT-to-Library-CatKey-Generator.py
main (lines 297-300): one line per source list, the title-cased name, a colon
and space, and the comma-joined keys. -/
def classicFoundLines (found : List (String × List String)) : List String :=
  found.map (fun p => titleCaseName p.1 ++ ": " ++ joinKeys p.2)

/-- Lines of the found TXT report written by generate_reports of
nyt_catkey_enhanced.py (lines 366-381): a header with a generation timestamp,
then per source list a block of a name line, a CatKeys line, a count line and
a blank line, then the combined keys of all lists. -/
def enhancedFoundLines (ts : String) (found : List (String × List String)) :
    List String :=
  ["NYT Bestsellers — Found CatKeys", String.mk (List.replicate 60 '='), "",
    "Generated: " ++ ts, ""]
  ++ found.flatMap (fun p =>
      [titleCaseName p.1 ++ ":", "CatKeys: " ++ joinKeys p.2,
        "Count: " ++ toString p.2.length, ""])
  ++ ["All CatKeys Combined:", joinKeys (found.flatMap Prod.snd)]

/-- A row of the not-found CSV. -/
structure NotFoundRow where
  list : String
  isbn : String
  title : String
  author : String
deriving DecidableEq

/-- Whether the csv module must quote a field: it contains the delimiter, a
quote character, or a line break. -/
def csvNeedsQuote (s : String) : Bool :=
  s.toList.any (fun c => c = ',' || c = '"' || c = '\n' || c = '\r')

/-- Minimal quoting of one CSV field, doubling embedded quote characters. -/
def csvQuote (s : String) : String :=
  "\"" ++ String.mk (s.toList.flatMap
    (fun c => if c = '"' then ['"', '"'] else [c])) ++ "\""

/-- One rendered CSV field under the default QUOTE_MINIMAL dialect. -/
def csvField (s : String) : String :=
  if csvNeedsQuote s then csvQuote s else s

/-- One data row written by the csv DictWriter with field names list, isbn,
title and author. -/
def csvRow (r : NotFoundRow) : String :=
  csvField r.list ++ "," ++ csvField r.isbn ++ "," ++ csvField r.title
    ++ "," ++ csvField r.author

/-- Lines of the not-found CSV written by generate_reports (lines 387-394):
the header row, then one row per collected not-found book, in order. -/
def notFoundCsvLines (rows : List NotFoundRow) : List String :=
  "list,isbn,title,author" :: rows.map csvRow

/- ──────────────────────────────────────────────────────────────────────────
   The per-list processing loop of nyt_catkey_enhanced.py main
   (lines 442-474), abstracted over the catalog by a resolve oracle.
   ────────────────────────────────────────────────────────────────────────── -/

/-- One iteration of the per-book loop: a book with a falsy identifier goes
straight to the not-found rows with the placeholder, otherwise the catalog is
consulted and the book yields either a resolved key or a not-found row. -/
def processBook (resolve : String → Option String) (listName : String)
    (b : Candidate) : Sum String NotFoundRow :=
  if b.isbn13 = "" then
    Sum.inr ⟨listName, "N/A", b.title, b.author⟩
  else
    match resolve b.isbn13 with
    | some k => Sum.inl k
    | none => Sum.inr ⟨listName, b.isbn13, b.title, b.author⟩

/-- The per-book loop over one list: resolved keys and not-found rows are each
collected in encounter order. -/
def runList (resolve : String → Option String) (listName : String) :
    List Candidate → List String × List NotFoundRow
  | [] => ([], [])
  | b :: bs =>
    let rest := runList resolve listName bs
    match processBook resolve listName b with
    | Sum.inl k => (k :: rest.1, rest.2)
    | Sum.inr row => (rest.1, row :: rest.2)

/-- The per-list loop of main: each list contributes its rows to the shared
not-found collection, and contributes an entry to the found mapping exactly
when its collected key list is non-empty. -/
def runLists (resolve : String → Option String) :
    List (String × List Candidate) →
      List (String × List String) × List NotFoundRow
  | [] => ([], [])
  | (n, bs) :: t =>
    let here := runList resolve n bs
    let rest := runLists resolve t
    ((if here.1.isEmpty then rest.1 else (n, here.1) :: rest.1),
      here.2 ++ rest.2)

/-- Claim-side characterization of the not-found row a candidate contributes:
the placeholder row for a falsy identifier, the full row for an identifier
the catalog does not resolve, and nothing for a resolved identifier. -/
def unresolvedRowOf (resolve : String → Option String) (listName : String)
    (b : Candidate) : Option NotFoundRow :=
  if b.isbn13 = "" then
    some ⟨listName, "N/A", b.title, b.author⟩
  else
    match resolve b.isbn13 with
    | some _ => none
    | none => some ⟨listName, b.isbn13, b.title, b.author⟩

/-- Claim-side characterization of the key a candidate contributes to the
found mapping. -/
def resolvedKeyOf (resolve : String → Option String) (b : Candidate) :
    Option String :=
  if b.isbn13 = "" then none else resolve b.isbn13

/- ──────────────────────────────────────────────────────────────────────────
   Notifier, from nyt_catkey_enhanced.py send_email_with_attachments
   (lines 323-355).
   ────────────────────────────────────────────────────────────────────────── -/

/-- Outcome of the SMTP conversation: success, or one of the three caught
failure kinds (authentication, other SMTP errors, anything else). -/
inductive SmtpOutcome
  | success
  | authError
  | smtpError
  | otherError
deriving DecidableEq

/-- The attachment loop: a file that does not exist on disk is skipped with a
warning, every existing file becomes an attached part named by its mapped
filename. -/
def attachParts (fsExists : String → Bool) :
    List (String × String) → List String
  | [] => []
  | (path, name) :: t =>
    if fsExists path then name :: attachParts fsExists t
    else attachParts fsExists t

/-- send_email_with_attachments of nyt_catkey_enhanced.py, abstracted over
the filesystem and the SMTP channel: an empty receiver list returns false
before any network activity, every caught failure of the SMTP phase returns
false, and only a completed send returns true.  The second component is the
list of attached filenames. -/
def send_email_with_attachments (receivers : List String)
    (attachments : List (String × String)) (fsExists : String → Bool)
    (smtp : SmtpOutcome) : Bool × List String :=
  if receivers = [] then
    (false, [])
  else
    let parts := attachParts fsExists attachments
    match smtp with
    | SmtpOutcome.success => (true, parts)
    | _ => (false, parts)

/- ──────────────────────────────────────────────────────────────────────────
   Concrete inputs used by witnesses.
   ────────────────────────────────────────────────────────────────────────── -/

/-- A concrete catalog oracle: resolves one known identifier to one key. -/
def resolveEx : String → Option String :=
  fun isbn => if isbn = "9780385545969" then some "482910" else none

/-- A concrete run input: one list with one resolvable and one unresolvable
candidate. -/
def listsEx : List (String × List Candidate) :=
  [("hardcover-fiction",
    [⟨"9780385545969", "The Wager", "David Grann"⟩,
     ⟨"9999999999999", "Missing Book", "Nobody"⟩])]

/- ──────────────────────────────────────────────────────────────────────────
   Lemmas.
   ────────────────────────────────────────────────────────────────────────── -/

theorem leadingDigits_decomp (l : List Char) :
    ∃ rest, l = leadingDigits l ++ rest ∧
      (∀ c cs, rest = c :: cs → c.isDigit = false) ∧
      ∀ c ∈ leadingDigits l, c.isDigit = true := by
  induction l with
  | nil =>
    refine ⟨[], rfl, ?_, ?_⟩
    · intro c cs h
      cases h
    · intro c hc
      simp [leadingDigits] at hc
  | cons c cs ih =>
    by_cases hd : c.isDigit = true
    · obtain ⟨rest, h1, h2, h3⟩ := ih
      refine ⟨rest, ?_, h2, ?_⟩
      · simp only [leadingDigits, hd, if_true, List.cons_append, List.cons.injEq,
          true_and]
        exact h1
      · intro x hx
        simp only [leadingDigits, hd, if_true, List.mem_cons] at hx
        rcases hx with rfl | hx
        · exact hd
        · exact h3 x hx
    · refine ⟨c :: cs, ?_, ?_, ?_⟩
      · simp [leadingDigits, hd]
      · intro c' cs' h
        injection h with h1 _
        subst h1
        simpa using hd
      · intro x hx
        simp [leadingDigits, hd] at hx

theorem extractCatkey_none (s : List Char) (h : extractCatkey s = none) :
    ¬ hasCatkeyMatch s := by
  induction s with
  | nil =>
    rintro ⟨pre, d, post, hs, -⟩
    have hlen := congrArg List.length hs
    simp [markerL, List.length_append] at hlen
    omega
  | cons c cs ih =>
    simp only [extractCatkey] at h
    by_cases hc : markerL <+: (c :: cs) ∧
        leadingDigits ((c :: cs).drop markerL.length) ≠ []
    · rw [if_pos hc] at h
      cases h
    · rw [if_neg hc] at h
      rintro ⟨pre, d, post, hs, hd⟩
      rcases pre with - | ⟨p, pre'⟩
      · simp only [List.nil_append] at hs
        apply hc
        have hdrop : (c :: cs).drop markerL.length = d :: post := by
          rw [hs]
          exact List.drop_left markerL (d :: post)
        refine ⟨⟨d :: post, hs.symm⟩, ?_⟩
        rw [hdrop]
        simp [leadingDigits, hd]
      · have hs' : c :: cs = p :: (pre' ++ markerL ++ d :: post) := hs
        injection hs' with h1 h2
        exact ih h ⟨pre', d, post, h2, hd⟩

theorem extractCatkey_some (s k : List Char) (h : extractCatkey s = some k) :
    k ≠ [] ∧ (∀ c ∈ k, c.isDigit = true) ∧
      ∃ pre post, s = pre ++ markerL ++ k ++ post ∧
        ∀ c cs, post = c :: cs → c.isDigit = false := by
  induction s with
  | nil => cases h
  | cons c cs ih =>
    simp only [extractCatkey] at h
    by_cases hc : markerL <+: (c :: cs) ∧
        leadingDigits ((c :: cs).drop markerL.length) ≠ []
    · rw [if_pos hc] at h
      obtain ⟨⟨t, ht⟩, hne⟩ := hc
      have hdrop : (c :: cs).drop markerL.length = t := by
        rw [← ht]
        exact List.drop_left markerL t
      have hk : k = leadingDigits t := by
        rw [hdrop] at h
        exact (Option.some.inj h).symm
      obtain ⟨rest, hdec, hmax, hall⟩ := leadingDigits_decomp t
      refine ⟨?_, ?_, [], rest, ?_, hmax⟩
      · rw [hk]
        rw [hdrop] at hne
        exact hne
      · rw [hk]
        exact hall
      · rw [hk, ← ht]
        conv_lhs => rw [hdec]
        simp [List.append_assoc]
    · rw [if_neg hc] at h
      obtain ⟨hne, hall, pre, post, hdec, hmax⟩ := ih h
      exact ⟨hne, hall, c :: pre, post, by rw [hdec]; rfl, hmax⟩

/- ──────────────────────────────────────────────────────────────────────────
   Claim theorems.
   ────────────────────────────────────────────────────────────────────────── -/

/-- C1: for every input string, the CatKey extraction function returns
exactly the digits following the marker when the string contains a substring
of the form SD_ILS followed by digits, and returns none when the string
contains no such substring.  Strings are modelled as lists of characters.
The extracted key is non-empty, all digits, sits in the input directly after
the marker, and is maximal (the input continues with a non-digit, if at
all). -/
theorem extract_catkey_spec (s : List Char) :
    (extractCatkey s = none ↔ ¬ hasCatkeyMatch s) ∧
    (∀ k, extractCatkey s = some k →
      k ≠ [] ∧ (∀ c ∈ k, c.isDigit = true) ∧
        ∃ pre post, s = pre ++ markerL ++ k ++ post ∧
          ∀ c cs, post = c :: cs → c.isDigit = false) := by
  constructor
  · constructor
    · exact extractCatkey_none s
    · intro hno
      cases hh : extractCatkey s with
      | none => rfl
      | some k =>
        exfalso
        obtain ⟨hne, hall, pre, post, hdec, -⟩ := extractCatkey_some s k hh
        obtain ⟨d, k', hk⟩ := List.exists_cons_of_ne_nil hne
        refine hno ⟨pre, d, k' ++ post, ?_, ?_⟩
        · rw [hdec, hk]
          simp [List.append_assoc]
        · exact hall d (by rw [hk]; exact List.mem_cons_self d k')
  · exact fun k => extractCatkey_some s k

/-- Witness for C1: the scanner applied to a concrete detail-page URL
containing SD_ILS:482910 yields exactly the digit run 482910. -/
theorem extract_catkey_spec_witness :
    "482910".toList ≠ [] ∧ (∀ c ∈ "482910".toList, c.isDigit = true) ∧
      ∃ pre post,
        "https://cat.example.org/client/en_US/lcpl/search/detailnonmodal/ent:SD_ILS:482910/one".toList
          = pre ++ markerL ++ "482910".toList ++ post ∧
          ∀ c cs, post = c :: cs → c.isDigit = false :=
  (extract_catkey_spec _).2 "482910".toList (by decide)

/-- C2: for every identifier and session, if the ISBN-mode search yields no
pattern match after both extraction attempts (current location URL and the
scanned link hrefs), the resolution function issues the title-mode search
request before returning: the request trace is exactly the ISBN-mode request
followed by the title-mode request. -/
theorem title_fallback_ordering (s : Session) (u : String) (hrefs : List String)
    (h1 : s.isbnNav = NavOutcome.page u hrefs)
    (h2 : pageCatkey u hrefs = none) :
    (search_library_catalog s).2 = [SearchMode.isbn, SearchMode.title] := by
  obtain ⟨nav1, nav2⟩ := s
  simp only at h1
  subst h1
  cases nav2 <;> simp [search_library_catalog, searchRaw, h2]

/-- Witness for C2: a concrete session whose ISBN-mode page carries no
pattern match in the URL or the links makes the engine issue the title-mode
request. -/
theorem title_fallback_ordering_witness :
    (search_library_catalog
      ⟨NavOutcome.page "https://catalog.example.org/search/results?qu=9780385545969" [],
        NavOutcome.page "https://catalog.example.org/search/results?qu=The+Wager" []⟩).2
      = [SearchMode.isbn, SearchMode.title] :=
  title_fallback_ordering _ _ _ rfl (by decide)

/-- C3: the resolution function never propagates an exception: for every
session behavior it returns exactly one of a resolved key or the unresolved
result none, and whenever its body faults at any step (timeout or driver
exception, on either navigation) the fault is caught and converted to the
unresolved result none, with the trace preserved. -/
theorem resolution_total_spec (s : Session) :
    ((search_library_catalog s).1 = none ∨
      ∃ k, (search_library_catalog s).1 = some k) ∧
    ∀ f tr, searchRaw s = (Except.error f, tr) →
      search_library_catalog s = (none, tr) := by
  constructor
  · cases hh : (search_library_catalog s).1 with
    | none => exact Or.inl rfl
    | some k => exact Or.inr ⟨k, rfl⟩
  · intro f tr h
    unfold search_library_catalog
    rw [h]

/-- Witness for C3: a session that times out on the ISBN-mode navigation is
converted to the unresolved result. -/
theorem resolution_total_spec_witness :
    search_library_catalog
        ⟨NavOutcome.fault Fault.timeout,
          NavOutcome.page "https://catalog.example.org/x" []⟩
      = (none, [SearchMode.isbn]) :=
  (resolution_total_spec _).2 Fault.timeout [SearchMode.isbn] rfl

/-- C5: on every exit path of the run in which a browser session was
acquired, including an uncaught exception raised by the body (any resolution
or list fetch), the finally block invokes the release of the session before
the run terminates. -/
theorem session_release_on_all_paths (createOk : Bool)
    (body : List RunEvent × Except PyErr Unit) (h : createOk = true) :
    RunEvent.quitDriver ∈ (enhanced_main_run createOk body).1 := by
  subst h
  simp [enhanced_main_run]

/-- Witness for C5: the driver is quit even when the body escapes with an
exception. -/
theorem session_release_on_all_paths_witness :
    RunEvent.quitDriver ∈
      (enhanced_main_run true
        ([RunEvent.bodyStep 0], Except.error PyErr.other)).1 :=
  session_release_on_all_paths true
    ([RunEvent.bodyStep 0], Except.error PyErr.other) rfl

/-- C6: the fetch retries transient failures with a backoff wait of two to
the power of the attempt number between failed attempts: with three allowed
attempts and a source failing twice then succeeding, it returns the
processed successful response after exactly the two backoff waits of one and
two seconds; when every attempt fails it returns the empty candidate list
instead of raising. -/
theorem fetch_retry_backoff_spec :
    (∀ (resp : Nat → FetchOutcome) (books : List NytBook),
      (resp 0 = FetchOutcome.timeout ∨ resp 0 = FetchOutcome.reqError) →
      (resp 1 = FetchOutcome.timeout ∨ resp 1 = FetchOutcome.reqError) →
      resp 2 = FetchOutcome.success books →
      fetch_nyt_list 3 resp = (processBooks_enh books, [2 ^ 0, 2 ^ 1])) ∧
    ∀ resp : Nat → FetchOutcome,
      (∀ a, a < 3 → resp a = FetchOutcome.timeout ∨ resp a = FetchOutcome.reqError) →
      fetch_nyt_list 3 resp = ([], [2 ^ 0, 2 ^ 1]) := by
  constructor
  · intro resp books h0 h1 h2
    rcases h0 with h0 | h0 <;> rcases h1 with h1 | h1 <;>
      simp [fetch_nyt_list, fetch_attempts, h0, h1, h2]
  · intro resp h
    rcases h 0 (by omega) with h0 | h0 <;>
      rcases h 1 (by omega) with h1 | h1 <;>
        rcases h 2 (by omega) with h2 | h2 <;>
          simp [fetch_nyt_list, fetch_attempts, h0, h1, h2]

/-- Witness for C6: a source that times out, then errors, then succeeds with
an empty page yields the empty candidate list after the two backoff
waits. -/
theorem fetch_retry_backoff_spec_witness :
    fetch_nyt_list 3
        (fun a => if a = 0 then FetchOutcome.timeout
          else if a = 1 then FetchOutcome.reqError
          else FetchOutcome.success [])
      = (processBooks_enh [], [2 ^ 0, 2 ^ 1]) :=
  fetch_retry_backoff_spec.1
    (fun a => if a = 0 then FetchOutcome.timeout
      else if a = 1 then FetchOutcome.reqError
      else FetchOutcome.success [])
    [] (Or.inl rfl) (Or.inr rfl) rfl

/-- C7: every candidate returned by the fetch carries an identifier that is
exactly 13 digits after stripping non-digit characters, and a book is
discarded (mapped to no candidate) exactly when no chosen identifier strips
to 13 digits. -/
theorem candidate_isbn_validation (books : List NytBook) :
    (∀ c ∈ processBooks_enh books,
      c.isbn13.length = 13 ∧ ∀ ch ∈ c.isbn13.toList, ch.isDigit = true) ∧
    ∀ b ∈ books, (candidateOfBook b = none ↔
      ∀ raw, chooseIsbn b = some raw → (stripNonDigits raw).length ≠ 13) := by
  constructor
  · intro c hc
    rw [processBooks_enh, List.mem_filterMap] at hc
    obtain ⟨b, -, hb⟩ := hc
    cases hcb : chooseIsbn b with
    | none => rw [candidateOfBook, hcb] at hb; cases hb
    | some raw =>
      rw [candidateOfBook, hcb] at hb
      simp only at hb
      by_cases hl : (stripNonDigits raw).length = 13
      · rw [if_pos hl] at hb
        obtain rfl := Option.some.inj hb
        refine ⟨hl, ?_⟩
        intro ch hch
        have hmem : ch ∈ raw.toList.filter (fun c => c.isDigit) := hch
        exact (List.mem_filter.mp hmem).2
      · rw [if_neg hl] at hb
        cases hb
  · intro b hb
    cases hcb : chooseIsbn b with
    | none => simp [candidateOfBook, hcb]
    | some raw =>
      by_cases hl : (stripNonDigits raw).length = 13
      · simp [candidateOfBook, hcb, hl]
      · simp [candidateOfBook, hcb, hl]

/-- Witness for C7: a concrete book whose hyphenated primary identifier
strips to 13 digits yields exactly that normalized candidate. -/
theorem candidate_isbn_validation_witness :
    (⟨"9780385545969", "The Wager", "David Grann"⟩ : Candidate).isbn13.length = 13 ∧
      ∀ ch ∈ (⟨"9780385545969", "The Wager", "David Grann"⟩ : Candidate).isbn13.toList,
        ch.isDigit = true :=
  (candidate_isbn_validation
      [⟨some "978-0-385-54596-9", [], "The Wager", "David Grann"⟩]).1
    ⟨"9780385545969", "The Wager", "David Grann"⟩ (by decide)

/-- C8: the notifier never propagates an exception past its boundary: for
every receiver list, attachment mapping, filesystem and SMTP behavior it
returns a boolean, true exactly when receivers are configured and the SMTP
conversation succeeds, and false on every caught failure (authentication,
SMTP, or any other error); missing attachment files are skipped rather than
fatal. -/
theorem notifier_send_total (receivers : List String)
    (attachments : List (String × String)) (fsExists : String → Bool)
    (smtp : SmtpOutcome) :
    ((send_email_with_attachments receivers attachments fsExists smtp).1 = true ↔
      receivers ≠ [] ∧ smtp = SmtpOutcome.success) ∧
    ((send_email_with_attachments receivers attachments fsExists smtp).1 = true ∨
      (send_email_with_attachments receivers attachments fsExists smtp).1 = false) := by
  constructor
  · by_cases hr : receivers = []
    · simp [send_email_with_attachments, hr]
    · cases smtp <;> simp [send_email_with_attachments, hr]
  · cases (send_email_with_attachments receivers attachments fsExists smtp).1
    · exact Or.inr rfl
    · exact Or.inl rfl

theorem flatMap_decomp {α β : Type} (f : α → List β) {l : List α} {a : α}
    (h : a ∈ l) : ∃ l1 l2, l.flatMap f = l1 ++ f a ++ l2 := by
  induction l with
  | nil => cases h
  | cons x xs ih =>
    rcases List.mem_cons.mp h with rfl | h
    · exact ⟨[], xs.flatMap f, by simp [List.flatMap_cons]⟩
    · obtain ⟨l1, l2, hd⟩ := ih h
      exact ⟨f x ++ l1, l2, by simp [List.flatMap_cons, hd, List.append_assoc]⟩

/-- C4 counterexample: for the concrete found mapping resolving list
hardcover-fiction to the single key 482910, the resolved-set export written
by generate_reports of nyt_catkey_enhanced.py contains no line of the form
claimed: the name and the keys are written on two separate lines. -/
theorem resolved_export_line_counterexample :
    "Hardcover Fiction: 482910" ∉
      enhancedFoundLines "2025-01-01 00:00:00"
        [("hardcover-fiction", ["482910"])] := by
  decide

/-- C4 (amended): for every non-empty found-keys mapping, the classic
generator writes, for each source list, one line of exactly the form of the
title-cased list name, a colon and space, and the comma-joined keys in
insertion order; the enhanced report instead renders each list as a block
whose consecutive lines carry the title-cased name with a colon, and the
comma-joined keys (in insertion order) behind a CatKeys label. -/
theorem resolved_export_formats (found : List (String × List String))
    (p : String × List String) (hp : p ∈ found) (ts : String) :
    (titleCaseName p.1 ++ ": " ++ joinKeys p.2) ∈ classicFoundLines found ∧
    ∃ l1 l2, enhancedFoundLines ts found =
      l1 ++ [titleCaseName p.1 ++ ":", "CatKeys: " ++ joinKeys p.2] ++ l2 := by
  constructor
  · exact List.mem_map_of_mem _ hp
  · obtain ⟨l1, l2, hdec⟩ := flatMap_decomp
      (fun q => [titleCaseName q.1 ++ ":", "CatKeys: " ++ joinKeys q.2,
        "Count: " ++ toString q.2.length, ""]) hp
    refine ⟨(["NYT Bestsellers — Found CatKeys", String.mk (List.replicate 60 '='),
        "", "Generated: " ++ ts, ""] : List String) ++ l1,
      ["Count: " ++ toString p.2.length, ""] ++ l2
        ++ ["All CatKeys Combined:", joinKeys (found.flatMap Prod.snd)], ?_⟩
    rw [enhancedFoundLines, hdec]
    simp [List.append_assoc]

/-- Witness for C4 (amended): the list hardcover-fiction with the keys 99
and 12 (in that unsorted resolution order) is rendered as the single classic
line and as the two consecutive enhanced lines. -/
theorem resolved_export_formats_witness :
    (titleCaseName "hardcover-fiction" ++ ": " ++ joinKeys ["99", "12"])
        ∈ classicFoundLines [("hardcover-fiction", ["99", "12"])] ∧
      ∃ l1 l2, enhancedFoundLines "2025-01-01" [("hardcover-fiction", ["99", "12"])] =
        l1 ++ [titleCaseName "hardcover-fiction" ++ ":",
          "CatKeys: " ++ joinKeys ["99", "12"]] ++ l2 :=
  resolved_export_formats [("hardcover-fiction", ["99", "12"])]
    ("hardcover-fiction", ["99", "12"]) (by decide) "2025-01-01"

theorem runList_rows (resolve : String → Option String) (n : String)
    (bs : List Candidate) :
    (runList resolve n bs).2 = bs.filterMap (unresolvedRowOf resolve n) := by
  induction bs with
  | nil => rfl
  | cons b bs ih =>
    by_cases hb : b.isbn13 = ""
    · simp [runList, processBook, unresolvedRowOf, hb, ih, List.filterMap_cons]
    · cases hr : resolve b.isbn13 <;>
        simp [runList, processBook, unresolvedRowOf, hb, hr, ih,
          List.filterMap_cons]

theorem runLists_rows (resolve : String → Option String)
    (ls : List (String × List Candidate)) :
    (runLists resolve ls).2 =
      ls.flatMap (fun p => p.2.filterMap (unresolvedRowOf resolve p.1)) := by
  induction ls with
  | nil => rfl
  | cons p t ih =>
    obtain ⟨n, bs⟩ := p
    simp [runLists, runList_rows, ih, List.flatMap_cons]

/-- C9: for every run, the not-found rows collected by the main loop are
exactly one row per unresolved candidate, in encounter order, carrying the
source list, the identifier (with the placeholder for a missing one), the
title and the author; and the CSV export is the header line followed by one
rendered row per collected row in the same order, fields rendered verbatim
whenever no CSV quoting is required. -/
theorem unresolved_csv_spec (resolve : String → Option String)
    (lists : List (String × List Candidate))
    (hne : (runLists resolve lists).2 ≠ []) :
    (runLists resolve lists).2 =
      lists.flatMap (fun p => p.2.filterMap (unresolvedRowOf resolve p.1)) ∧
    notFoundCsvLines (runLists resolve lists).2 =
      "list,isbn,title,author" :: ((runLists resolve lists).2.map csvRow) ∧
    (∀ b n, unresolvedRowOf resolve n b = none ∨
      unresolvedRowOf resolve n b =
        some ⟨n, if b.isbn13 = "" then "N/A" else b.isbn13, b.title, b.author⟩) ∧
    ∀ s, csvNeedsQuote s = false → csvField s = s := by
  refine ⟨runLists_rows resolve lists, rfl, ?_, ?_⟩
  · intro b n
    by_cases hb : b.isbn13 = ""
    · simp [unresolvedRowOf, hb]
    · cases hr : resolve b.isbn13 <;> simp [unresolvedRowOf, hb, hr]
  · intro s h
    simp [csvField, h]

/-- Witness for C9 at a concrete run with one resolved and one unresolved
candidate. -/
theorem unresolved_csv_spec_witness :
    (runLists resolveEx listsEx).2 =
      listsEx.flatMap (fun p => p.2.filterMap (unresolvedRowOf resolveEx p.1)) ∧
    notFoundCsvLines (runLists resolveEx listsEx).2 =
      "list,isbn,title,author" :: ((runLists resolveEx listsEx).2.map csvRow) ∧
    (∀ b n, unresolvedRowOf resolveEx n b = none ∨
      unresolvedRowOf resolveEx n b =
        some ⟨n, if b.isbn13 = "" then "N/A" else b.isbn13, b.title, b.author⟩) ∧
    (∀ s, csvNeedsQuote s = false → csvField s = s) :=
  unresolved_csv_spec resolveEx listsEx (by decide)

theorem runList_keys (resolve : String → Option String) (n : String)
    (bs : List Candidate) :
    (runList resolve n bs).1 = bs.filterMap (resolvedKeyOf resolve) := by
  induction bs with
  | nil => rfl
  | cons b bs ih =>
    by_cases hb : b.isbn13 = ""
    · simp [runList, processBook, resolvedKeyOf, hb, ih, List.filterMap_cons]
    · cases hr : resolve b.isbn13 <;>
        simp [runList, processBook, resolvedKeyOf, hb, hr, ih,
          List.filterMap_cons]

theorem runList_keys_ne_nil_iff (resolve : String → Option String) (n : String)
    (bs : List Candidate) :
    (runList resolve n bs).1 ≠ [] ↔
      ∃ b ∈ bs, b.isbn13 ≠ "" ∧ ∃ k, resolve b.isbn13 = some k := by
  rw [runList_keys, Ne, List.filterMap_eq_nil_iff]
  constructor
  · intro h
    by_contra hno
    push_neg at hno
    apply h
    intro b hb
    by_cases hbe : b.isbn13 = ""
    · simp [resolvedKeyOf, hbe]
    · cases hr : resolve b.isbn13 with
      | none => simp [resolvedKeyOf, hbe, hr]
      | some k => exact absurd hr (hno b hb hbe k)
  · rintro ⟨b, hb, hbe, k, hk⟩ hall
    have hkey := hall b hb
    rw [resolvedKeyOf, if_neg hbe, hk] at hkey
    cases hkey

theorem mem_runLists_found_name (resolve : String → Option String)
    (ls : List (String × List Candidate)) (n : String) (ks : List String)
    (h : (n, ks) ∈ (runLists resolve ls).1) : n ∈ ls.map Prod.fst := by
  induction ls with
  | nil => cases h
  | cons q t ih =>
    obtain ⟨m, bs⟩ := q
    simp only [runLists] at h
    simp only [List.map_cons]
    by_cases he : (runList resolve m bs).1.isEmpty
    · rw [if_pos he] at h
      exact List.mem_cons_of_mem m (ih h)
    · rw [if_neg he] at h
      rcases List.mem_cons.mp h with heq | hmem
      · rw [Prod.mk.injEq] at heq
        rw [heq.1]
        exact List.mem_cons_self m (t.map Prod.fst)
      · exact List.mem_cons_of_mem m (ih hmem)

theorem runLists_found_nonempty (resolve : String → Option String)
    (ls : List (String × List Candidate)) :
    ∀ p ∈ (runLists resolve ls).1, p.2 ≠ [] := by
  induction ls with
  | nil =>
    intro p hp
    cases hp
  | cons q t ih =>
    obtain ⟨m, bs⟩ := q
    intro p hp
    simp only [runLists] at hp
    by_cases he : (runList resolve m bs).1.isEmpty
    · rw [if_pos he] at hp
      exact ih p hp
    · rw [if_neg he] at hp
      rcases List.mem_cons.mp hp with rfl | hmem
      · intro hcon
        apply he
        rw [List.isEmpty_iff]
        exact hcon
      · exact ih p hmem

theorem runLists_found_iff (resolve : String → Option String) :
    ∀ ls : List (String × List Candidate), (ls.map Prod.fst).Nodup →
      ∀ n bs, (n, bs) ∈ ls →
        ((∃ ks, (n, ks) ∈ (runLists resolve ls).1) ↔
          ∃ b ∈ bs, b.isbn13 ≠ "" ∧ ∃ k, resolve b.isbn13 = some k) := by
  intro ls
  induction ls with
  | nil =>
    intro _ n bs h
    cases h
  | cons q t ih =>
    obtain ⟨m, cs⟩ := q
    intro hnd n bs hmem
    rw [List.map_cons, List.nodup_cons] at hnd
    obtain ⟨hm, hnd2⟩ := hnd
    rcases List.mem_cons.mp hmem with heq | hmem2
    · rw [Prod.mk.injEq] at heq
      obtain ⟨rfl, rfl⟩ := heq
      rw [← runList_keys_ne_nil_iff resolve n bs]
      constructor
      · rintro ⟨ks, hks⟩
        simp only [runLists] at hks
        by_cases he : (runList resolve n bs).1.isEmpty
        · rw [if_pos he] at hks
          exact absurd (mem_runLists_found_name resolve t n ks hks) hm
        · intro hcon
          apply he
          rw [List.isEmpty_iff]
          exact hcon
      · intro hne
        refine ⟨(runList resolve n bs).1, ?_⟩
        simp only [runLists]
        rw [if_neg (by rw [List.isEmpty_iff]; exact hne)]
        exact List.mem_cons_self _ _
    · have hn : n ∈ t.map Prod.fst := List.mem_map_of_mem Prod.fst hmem2
      have hnm : n ≠ m := fun h => hm (h ▸ hn)
      rw [← ih hnd2 n bs hmem2]
      constructor
      · rintro ⟨ks, hks⟩
        simp only [runLists] at hks
        by_cases he : (runList resolve m cs).1.isEmpty
        · rw [if_pos he] at hks
          exact ⟨ks, hks⟩
        · rw [if_neg he] at hks
          rcases List.mem_cons.mp hks with heq2 | hks2
          · rw [Prod.mk.injEq] at heq2
            exact absurd heq2.1 hnm
          · exact ⟨ks, hks2⟩
      · rintro ⟨ks, hks⟩
        refine ⟨ks, ?_⟩
        simp only [runLists]
        by_cases he : (runList resolve m cs).1.isEmpty
        · rw [if_pos he]
          exact hks
        · rw [if_neg he]
          exact List.mem_cons_of_mem _ hks

/-- C10: for every run over lists with distinct names, the found mapping
passed to the reporter contains an entry for a source list exactly when at
least one of its candidates resolved to a key, and no group of the mapping
ever carries an empty key sequence. -/
theorem found_mapping_groups (resolve : String → Option String)
    (ls : List (String × List Candidate))
    (hnd : (ls.map Prod.fst).Nodup) :
    (∀ p ∈ (runLists resolve ls).1, p.2 ≠ []) ∧
    ∀ n bs, (n, bs) ∈ ls →
      ((∃ ks, (n, ks) ∈ (runLists resolve ls).1) ↔
        ∃ b ∈ bs, b.isbn13 ≠ "" ∧ ∃ k, resolve b.isbn13 = some k) :=
  ⟨runLists_found_nonempty resolve ls, runLists_found_iff resolve ls hnd⟩

/-- Witness for C10 at a concrete run: the single list appears in the found
mapping because its first candidate resolves. -/
theorem found_mapping_groups_witness :
    (∀ p ∈ (runLists resolveEx listsEx).1, p.2 ≠ []) ∧
    ∀ n bs, (n, bs) ∈ listsEx →
      ((∃ ks, (n, ks) ∈ (runLists resolveEx listsEx).1) ↔
        ∃ b ∈ bs, b.isbn13 ≠ "" ∧ ∃ k, resolveEx b.isbn13 = some k) :=
  found_mapping_groups resolveEx listsEx (by decide)
